import Mathlib

/-!
Verification of the Voice Pattern Learning & Weighted Generation Engine
(`voice_evolution.py` / `adaptive_writer.py`).

The Python code is shallowly embedded: texts are Lean `String`s, Python
dicts become insertion-ordered association lists `List (String × Nat)`,
the process-wide random draws become explicit parameters (a rational draw
for `random.uniform(0, total)`, a rational for `random.random()`, a list
of booleans for the per-sentence coin flips).
-/

set_option maxRecDepth 10000

namespace Sanctum

/-! ## Python string primitives -/

/-- The whitespace characters stripped by Python `str.strip()` / split by
`str.split()` (ASCII fragment). -/
def pyIsSpace (c : Char) : Bool :=
  c = ' ' || c = '\t' || c = '\n' || c = '\r' || c = '\x0b' || c = '\x0c'

/-- Python `str.lower()`. -/
def pyLower (s : String) : String := String.mk (s.data.map Char.toLower)

/-- Python `str.strip()`: drop whitespace from both ends. -/
def stripChars (s : List Char) : List Char :=
  ((s.dropWhile pyIsSpace).reverse.dropWhile pyIsSpace).reverse

/-- Python `str.strip()` on `String`. -/
def pyStrip (s : String) : String := String.mk (stripChars s.data)

def wordsAux : List Char → List Char → List (List Char)
  | [], acc => if acc = [] then [] else [acc.reverse]
  | c :: rest, acc =>
    if pyIsSpace c then
      if acc = [] then wordsAux rest [] else acc.reverse :: wordsAux rest []
    else wordsAux rest (c :: acc)

/-- Python `str.split()` with no separator: split on runs of whitespace,
discarding empty pieces. -/
def pyWords (s : String) : List String := (wordsAux s.data []).map String.mk

def splitOnPredAux (p : Char → Bool) : List Char → List Char → List (List Char)
  | [], acc => [acc.reverse]
  | c :: rest, acc =>
    if p c then acc.reverse :: splitOnPredAux p rest []
    else splitOnPredAux p rest (c :: acc)

/-- Split a character list at every separator character, keeping empty
segments (the semantics of Python `str.split(sep)` for a one-character
separator, generalised to a predicate). -/
def splitOnPred (p : Char → Bool) (s : List Char) : List (List Char) :=
  splitOnPredAux p s []

/-- First index at which `needle` occurs in `hay` (Python `str.find`,
restricted to the found case). -/
def firstIdx (needle : List Char) : List Char → Option Nat
  | [] => if needle.isPrefixOf ([] : List Char) then some 0 else none
  | c :: rest =>
    if needle.isPrefixOf (c :: rest) then some 0
    else (firstIdx needle rest).map (· + 1)

/-- Python `needle in hay` substring containment. -/
def isSubstr (needle hay : List Char) : Bool := (firstIdx needle hay).isSome

/-- Python `' '.join(l)`. -/
def joinSpace (l : List String) : String := String.intercalate " " l

/-- Python `str.capitalize()`: first character upper-cased, the rest
lower-cased. -/
def pyCapitalize (s : String) : String :=
  match s.data with
  | [] => String.mk []
  | c :: rest => String.mk (c.toUpper :: rest.map Char.toLower)

/-! ## Count mappings

Python dicts mapping string keys to integer counts, in insertion order. -/

/-- `d.get(k, 0)` on a counts dict. -/
def lookupCount : List (String × Nat) → String → Nat
  | [], _ => 0
  | (k, c) :: rest, q => if k = q then c else lookupCount rest q

/-- `k in d` on a counts dict. -/
def hasKey : List (String × Nat) → String → Bool
  | [], _ => false
  | (k, _) :: rest, q => k = q || hasKey rest q

/-- `d[k] = d.get(k, 0) + 1`: bump an existing key in place, else append
the key with count 1 (Python dicts keep insertion order). -/
def incr : List (String × Nat) → String → List (String × Nat)
  | [], q => [(q, 1)]
  | (k, c) :: rest, q =>
    if k = q then (k, c + 1) :: rest else (k, c) :: incr rest q

/-! ## Feature extraction (`VoiceProfile._extract_*`, `_detect_emotional_register`) -/

def isSentenceSep (c : Char) : Bool := c = '.' || c = '!' || c = '?'

/-- `[s.strip() for s in re.split(r'[.!?]+', text) if s.strip()]`.
Splitting at every single separator character and then discarding empty
stripped pieces yields the same list as splitting on separator runs,
because the segment between two adjacent separators is empty. -/
def sentencesOf (text : String) : List String :=
  ((((splitOnPred isSentenceSep text.data).map stripChars).filter
    (fun l => !l.isEmpty)).map String.mk)

/-- `VoiceProfile._extract_structure`. -/
def extractStructure (sentence : String) : String :=
  let ws := pyWords (pyLower sentence)
  match ws with
  | [] => "empty"
  | w :: _ =>
    if w ∈ ["what", "who", "when", "where", "why", "how"] then "question"
    else if w ∈ ["i", "this", "the"] then
      if "is" ∈ ws ∨ "am" ∈ ws ∨ "are" ∈ ws then "declarative_being"
      else "declarative_action"
    else if w ∈ ["perhaps", "maybe", "possibly"] then "speculative"
    else if w ∈ ["but", "yet", "however", "still"] then "contrastive"
    else if w ∈ ["because", "since", "as"] then "causal"
    else "other"

/-- Contiguous `n`-word windows, one per `i in range(len(ws) - (n-1))`. -/
def windowsOf (n : Nat) (ws : List String) : List (List String) :=
  (List.range (ws.length - (n - 1))).map (fun i => (ws.drop i).take n)

/-- `VoiceProfile._extract_phrases`: 3-word windows longer than 10
characters, then 4-word windows longer than 15 characters, space-joined,
of the lower-cased sentence. -/
def extractPhrases (sentence : String) : List String :=
  let ws := pyWords (pyLower sentence)
  ((windowsOf 3 ws).map joinSpace).filter (fun p => decide (10 < p.length)) ++
  ((windowsOf 4 ws).map joinSpace).filter (fun p => decide (15 < p.length))

def metaphor_indicators : List String :=
  ["like a", "as a", "becomes", "transforms into",
   "is a kind of", "echoes", "resonates", "mirrors",
   "threads", "weaves", "grows", "seeds", "roots"]

/-- `VoiceProfile._extract_metaphors`: for each indicator present in the
lower-cased sentence, the stripped slice `sentence[max(0,idx-20):min(len,idx+50)]`
of the original sentence. -/
def extractMetaphors (sentence : String) : List String :=
  let lower := (pyLower sentence).data
  metaphor_indicators.filterMap (fun ind =>
    match firstIdx ind.data lower with
    | none => none
    | some idx =>
      let a := idx - 20
      let b := min sentence.data.length (idx + 50)
      some (String.mk (stripChars ((sentence.data.drop a).take (b - a)))))

def contemplative_words : List String :=
  ["wonder", "perhaps", "might", "could", "maybe", "uncertain"]
def assertive_words : List String :=
  ["is", "will", "must", "always", "never", "certainly"]
def tentative_words : List String :=
  ["seems", "appears", "suggests", "implies", "hints"]
def emotional_words : List String :=
  ["fear", "hope", "love", "doubt", "trust", "believe"]

/-- `sum(1 for word in ws if word in tl)`: the number of indicator words
of the set occurring as substrings (each counted at most once). -/
def presenceCount (ws : List String) (tl : String) : Nat :=
  (ws.filter (fun w => isSubstr w.data tl.data)).length

/-- Python `max(scores, key=scores.get)` over an ordered association list:
walk the entries keeping the current best, replacing it only on a strictly
larger value, so the first entry attaining the maximum wins. -/
def argmaxFirstAux (best : String × Nat) : List (String × Nat) → String × Nat
  | [] => best
  | p :: rest => argmaxFirstAux (if best.2 < p.2 then p else best) rest

/-- `VoiceProfile._detect_emotional_register`. -/
def detectEmotionalRegister (text : String) : String :=
  let tl := pyLower text
  let contemplative := presenceCount contemplative_words tl
  let assertive := presenceCount assertive_words tl
  let tentative := presenceCount tentative_words tl
  let emotional := presenceCount emotional_words tl
  let winner := argmaxFirstAux ("contemplative", contemplative)
    [("assertive", assertive), ("tentative", tentative), ("emotional", emotional)]
  if winner.2 = 0 then "neutral" else winner.1

/-! ## The voice profile (`VoiceProfile`) -/

structure VoiceProfile where
  sentence_patterns : List (String × Nat)
  recurring_phrases : List (String × Nat)
  metaphor_vocabulary : List (String × Nat)
  opening_patterns : List (String × Nat)
  closing_patterns : List (String × Nat)
  rhythmic_preferences : List (String × Nat)
  emotional_registers : List (String × Nat)
  total_reflections : Nat
  last_evolution : Option String
  deriving Repr, DecidableEq

/-- `sentences[0][:50]`. -/
def openingKey (s : String) : String := String.mk (s.data.take 50)

/-- `sentences[-1][-50:]`. -/
def closingKey (s : String) : String := String.mk (s.data.drop (s.data.length - 50))

/-- `'short' if avg < 8 else 'medium' if avg < 15 else 'long'` where
`avg` is the mean word count per sentence (`0` when there are no
sentences); Python computes `avg` with float division, modelled here as
an exact rational. -/
def lengthCategory (sentences : List String) : String :=
  let avg : ℚ :=
    if sentences.length = 0 then 0
    else ((sentences.map (fun s => (pyWords s).length)).sum : ℚ) / (sentences.length : ℚ)
  if avg < 8 then "short" else if avg < 15 then "medium" else "long"

/-- `VoiceProfile.analyze_text`. -/
def analyzeText (p : VoiceProfile) (text : String) : VoiceProfile :=
  let sentences := sentencesOf text
  { sentence_patterns :=
      sentences.foldl (fun m s => incr m (extractStructure s)) p.sentence_patterns
    recurring_phrases :=
      sentences.foldl (fun m s => (extractPhrases s).foldl incr m) p.recurring_phrases
    metaphor_vocabulary :=
      sentences.foldl (fun m s => (extractMetaphors s).foldl incr m) p.metaphor_vocabulary
    opening_patterns :=
      if sentences.isEmpty then p.opening_patterns
      else incr p.opening_patterns (openingKey (sentences.headD ""))
    closing_patterns :=
      if sentences.isEmpty then p.closing_patterns
      else incr p.closing_patterns (closingKey (sentences.getLastD ""))
    rhythmic_preferences := incr p.rhythmic_preferences (lengthCategory sentences)
    emotional_registers := incr p.emotional_registers (detectEmotionalRegister text)
    total_reflections := p.total_reflections + 1
    last_evolution := p.last_evolution }

/-! ## Persistence (`save_profile` / `load_profile`)

The JSON file is modelled as an association list from field names to
values; `load_profile` reads each field back with `data.get(key, default)`. -/

inductive JVal where
  | jcounts : List (String × Nat) → JVal
  | jnat : Nat → JVal
  | jstr : String → JVal
  deriving Repr, DecidableEq

def getCounts (d : List (String × JVal)) (k : String) : List (String × Nat) :=
  match d.lookup k with
  | some (JVal.jcounts m) => m
  | _ => []

def getNat (d : List (String × JVal)) (k : String) : Nat :=
  match d.lookup k with
  | some (JVal.jnat n) => n
  | _ => 0

def getStr (d : List (String × JVal)) (k : String) : Option String :=
  match d.lookup k with
  | some (JVal.jstr s) => some s
  | _ => none

/-- `VoiceProfile.save_profile`: the persisted dictionary, with
`last_evolution` set to the save time `now`. -/
def saveProfile (p : VoiceProfile) (now : String) : List (String × JVal) :=
  [("sentence_patterns", JVal.jcounts p.sentence_patterns),
   ("recurring_phrases", JVal.jcounts p.recurring_phrases),
   ("metaphor_vocabulary", JVal.jcounts p.metaphor_vocabulary),
   ("opening_patterns", JVal.jcounts p.opening_patterns),
   ("closing_patterns", JVal.jcounts p.closing_patterns),
   ("rhythmic_preferences", JVal.jcounts p.rhythmic_preferences),
   ("emotional_registers", JVal.jcounts p.emotional_registers),
   ("total_reflections", JVal.jnat p.total_reflections),
   ("last_evolution", JVal.jstr now)]

/-- `VoiceProfile.load_profile`, existing-file branch: each field read
with `data.get(field, default)`. -/
def loadProfile (d : List (String × JVal)) : VoiceProfile :=
  { sentence_patterns := getCounts d "sentence_patterns"
    recurring_phrases := getCounts d "recurring_phrases"
    metaphor_vocabulary := getCounts d "metaphor_vocabulary"
    opening_patterns := getCounts d "opening_patterns"
    closing_patterns := getCounts d "closing_patterns"
    rhythmic_preferences := getCounts d "rhythmic_preferences"
    emotional_registers := getCounts d "emotional_registers"
    total_reflections := getNat d "total_reflections"
    last_evolution := getStr d "last_evolution" }

/-! ## Weighted sampling (`AdaptiveWriter`)

`random.uniform(0, total)` becomes an explicit rational parameter `rand`;
the walk accumulates counts and returns the first key whose cumulative
sum reaches the draw. -/

def weightedWalkAux (rand : ℚ) (cumulative : ℚ) : List (String × Nat) → Option String
  | [] => none
  | (k, c) :: rest =>
    let cum := cumulative + (c : ℚ)
    if rand ≤ cum then some k else weightedWalkAux rand cum rest

/-- Sum of the counts of a mapping (`sum(d.values())`). -/
def sumCounts (m : List (String × Nat)) : Nat := (m.map Prod.snd).sum

/-- `AdaptiveWriter.get_preferred_structure`: default `declarative_being`
on an empty mapping; after the loop, fall back to the first key. -/
def getPreferredStructure (sentence_patterns : List (String × Nat)) (rand : ℚ) : String :=
  match sentence_patterns with
  | [] => "declarative_being"
  | (k₀, c₀) :: rest => (weightedWalkAux rand 0 ((k₀, c₀) :: rest)).getD k₀

/-- `AdaptiveWriter.get_preferred_register`: default `contemplative` on
an empty mapping; after the loop, fall back to the first key. -/
def getPreferredRegister (emotional_registers : List (String × Nat)) (rand : ℚ) : String :=
  match emotional_registers with
  | [] => "contemplative"
  | (k₀, c₀) :: rest => (weightedWalkAux rand 0 ((k₀, c₀) :: rest)).getD k₀

/-- `AdaptiveWriter.get_preferred_rhythm`: default `medium` on an empty
mapping; after the loop, fall back to `medium`. -/
def getPreferredRhythm (rhythmic_preferences : List (String × Nat)) (rand : ℚ) : String :=
  if rhythmic_preferences.isEmpty then "medium"
  else (weightedWalkAux rand 0 rhythmic_preferences).getD "medium"

/-- `AdaptiveWriter.get_signature_phrase`: restrict to entries with count
at least 2; `none` when none qualify; fall back to the first qualifying
key after the loop. -/
def getSignaturePhrase (recurring_phrases : List (String × Nat)) (rand : ℚ) : Option String :=
  if recurring_phrases.isEmpty then none
  else
    match recurring_phrases.filter (fun p => decide (2 ≤ p.2)) with
    | [] => none
    | (k₀, c₀) :: rest => some ((weightedWalkAux rand 0 ((k₀, c₀) :: rest)).getD k₀)

/-! ## Rhythm adjustment (`AdaptiveWriter.adjust_rhythm`) -/

/-- `[s.strip() + '.' for s in text.split('.') if s.strip()]`. -/
def rhythmSentences (text : String) : List String :=
  (((splitOnPred (fun c => c = '.') text.data).map stripChars).filter
    (fun l => !l.isEmpty)).map (fun l => String.mk (l ++ ['.']))

/-- The `short` branch: sentences of more than 15 words are split in two
at the midpoint word when the coin comes up true; coins are consumed only
when the length test passes (Python's short-circuit `and`). -/
def shortAdjust : List String → List Bool → List String
  | [], _ => []
  | s :: rest, coins =>
    let ws := pyWords s
    if 15 < ws.length then
      match coins with
      | [] => s :: shortAdjust rest []
      | b :: cs =>
        if b then
          (joinSpace (ws.take (ws.length / 2)) ++ ".") ::
            joinSpace (ws.drop (ws.length / 2)) :: shortAdjust rest cs
        else s :: shortAdjust rest cs
    else s :: shortAdjust rest coins

/-- `sentences[i].rstrip('.')`. -/
def rstripDot (s : String) : String :=
  String.mk ((s.data.reverse.dropWhile (fun c => c = '.')).reverse)

/-- `sentences[i+1].lstrip()`. -/
def lstripWs (s : String) : String := String.mk (s.data.dropWhile pyIsSpace)

/-- The `long` branch: a sentence of fewer than 8 words that is not the
last is comma-joined with its successor when the coin comes up true. -/
def longAdjust : List String → List Bool → List String
  | [], _ => []
  | [s], _ => [s]
  | s :: s2 :: rest, coins =>
    if (pyWords s).length < 8 then
      match coins with
      | [] => s :: longAdjust (s2 :: rest) []
      | b :: cs =>
        if b then (rstripDot s ++ ", " ++ lstripWs s2) :: longAdjust rest cs
        else s :: longAdjust (s2 :: rest) cs
    else s :: longAdjust (s2 :: rest) coins

/-- `AdaptiveWriter.adjust_rhythm`: the preferred rhythm is drawn from
the profile; `short` and `long` reassemble the adjusted sentences
space-joined, anything else returns the text unchanged. -/
def adjustRhythm (rhythmic_preferences : List (String × Nat)) (rand : ℚ)
    (coins : List Bool) (text : String) : String :=
  let rhythm := getPreferredRhythm rhythmic_preferences rand
  if rhythm = "short" then joinSpace (shortAdjust (rhythmSentences text) coins)
  else if rhythm = "long" then joinSpace (longAdjust (rhythmSentences text) coins)
  else text

/-! ## Phrase weaving (`AdaptiveWriter.weave_signature_phrases`) -/

def splitDots (s : String) : List (List Char) := splitOnPred (fun c => c = '.') s.data

def joinDots (l : List (List Char)) : String := String.mk (List.intercalate ['.'] l)

/-- `AdaptiveWriter.weave_signature_phrases`: `r` models the
`random.random()` draw compared against 0.2, `srand` the inner draw of
`get_signature_phrase`.  Mirrors the code exactly, including the early
return on an empty phrase mapping and Python's truthiness test
`if phrase` (which also rejects an empty-string phrase). -/
def weaveSignaturePhrases (r : ℚ) (recurring_phrases : List (String × Nat))
    (srand : ℚ) (base_text : String) : String :=
  if (1 : ℚ)/5 < r ∨ recurring_phrases = [] then base_text
  else
    match getSignaturePhrase recurring_phrases srand with
    | none => base_text
    | some phrase =>
      if phrase.data ≠ [] ∧ isSubstr phrase.data (pyLower base_text).data = false then
        let sentences := splitDots base_text
        if 2 < sentences.length then
          joinDots (sentences.set (sentences.length / 2)
            (stripChars (sentences.getD (sentences.length / 2) []) ++
              ' ' :: (pyCapitalize phrase).data))
        else base_text
      else base_text

/-- Modelled from the claim's words, for comparison with
`weaveSignaturePhrases`: with probability 0.2 (otherwise unchanged), if a
signature phrase exists and is not already a case-insensitive substring
of the text, split on `.`; with more than 2 segments, append the
capitalized phrase to the trimmed middle segment and rejoin; in every
other case return the text unchanged. -/
def weaveSpec (r : ℚ) (recurring_phrases : List (String × Nat))
    (srand : ℚ) (text : String) : String :=
  if (1 : ℚ)/5 < r then text
  else
    match getSignaturePhrase recurring_phrases srand with
    | none => text
    | some phrase =>
      if isSubstr (pyLower phrase).data (pyLower text).data then text
      else
        let segs := splitDots text
        if 2 < segs.length then
          joinDots (segs.set (segs.length / 2)
            (stripChars (segs.getD (segs.length / 2) []) ++
              ' ' :: (pyCapitalize phrase).data))
        else text

/-! ## The claim's occurrence-counting register rule

Modelled from the claim's words ("counting occurrences (substring,
case-insensitive, over the whole text) of the four fixed indicator-word
sets"), for comparison with `detectEmotionalRegister`. -/

/-- Number of (possibly overlapping) occurrences of `needle` in `hay`. -/
def occCount (needle hay : List Char) : Nat :=
  ((List.range (hay.length + 1)).filter (fun i => needle.isPrefixOf (hay.drop i))).length

/-- Total occurrences of the words of a set in the lower-cased text. -/
def occSum (ws : List String) (tl : String) : Nat :=
  (ws.map (fun w => occCount w.data tl.data)).sum

/-- The register rule as the claim states it: occurrence counts per set,
highest wins, ties first-checked-wins, `neutral` when all are zero. -/
def registerSpecOcc (text : String) : String :=
  let tl := pyLower text
  let contemplative := occSum contemplative_words tl
  let assertive := occSum assertive_words tl
  let tentative := occSum tentative_words tl
  let emotional := occSum emotional_words tl
  let winner := argmaxFirstAux ("contemplative", contemplative)
    [("assertive", assertive), ("tentative", tentative), ("emotional", emotional)]
  if winner.2 = 0 then "neutral" else winner.1

/-- The amended register rule: each indicator word contributes at most
one, namely 1 exactly when it occurs as a substring of the lower-cased
text; the winner is the set with the highest such count, ties broken
first-checked-wins in the order contemplative, assertive, tentative,
emotional, and `neutral` when all four counts are zero. -/
def registerSpecPresence (text : String) : String :=
  let tl := pyLower text
  let c := presenceCount contemplative_words tl
  let a := presenceCount assertive_words tl
  let t := presenceCount tentative_words tl
  let e := presenceCount emotional_words tl
  if c = 0 ∧ a = 0 ∧ t = 0 ∧ e = 0 then "neutral"
  else if a ≤ c ∧ t ≤ c ∧ e ≤ c then "contemplative"
  else if t ≤ a ∧ e ≤ a then "assertive"
  else if e ≤ t then "tentative"
  else "emotional"

/-- The text of spec Scenario 1. -/
def exampleText9 : String := "What am I? I am becoming. I wonder if this is enough."

/-! ## Lemmas about count mappings -/

theorem lookupCount_incr (m : List (String × Nat)) (k q : String) :
    lookupCount (incr m k) q = lookupCount m q + (if q = k then 1 else 0) := by
  induction m with
  | nil =>
    simp only [incr, lookupCount]
    by_cases h : q = k
    · subst h; simp
    · rw [if_neg (fun hk => h hk.symm), if_neg h]
  | cons p rest ih =>
    obtain ⟨k', c⟩ := p
    simp only [incr]
    by_cases h1 : k' = k
    · subst h1
      simp only [if_pos rfl, lookupCount]
      by_cases h2 : k' = q
      · subst h2; simp
      · rw [if_neg h2, if_neg h2, if_neg (fun hq : q = k' => h2 hq.symm)]
        omega
    · rw [if_neg h1]
      simp only [lookupCount]
      by_cases h2 : k' = q
      · subst h2
        rw [if_pos rfl, if_pos rfl, if_neg (fun hq : k' = k => h1 hq)]
        omega
      · rw [if_neg h2, if_neg h2, ih]

theorem lookupCount_le_incr (m : List (String × Nat)) (k q : String) :
    lookupCount m q ≤ lookupCount (incr m k) q := by
  rw [lookupCount_incr]; exact Nat.le_add_right _ _

theorem hasKey_incr (m : List (String × Nat)) (k q : String)
    (h : hasKey m q = true) : hasKey (incr m k) q = true := by
  induction m with
  | nil => simp [hasKey] at h
  | cons p rest ih =>
    obtain ⟨k', c⟩ := p
    simp only [incr]
    by_cases h1 : k' = k
    · rw [if_pos h1]
      simpa [hasKey] using h
    · rw [if_neg h1]
      simp only [hasKey, Bool.or_eq_true] at h ⊢
      rcases h with h | h
      · exact Or.inl h
      · exact Or.inr (ih h)

theorem lookupCount_le_foldl {α : Type} (step : List (String × Nat) → α → List (String × Nat))
    (hstep : ∀ m a q, lookupCount m q ≤ lookupCount (step m a) q)
    (l : List α) (m : List (String × Nat)) (q : String) :
    lookupCount m q ≤ lookupCount (l.foldl step m) q := by
  induction l generalizing m with
  | nil => simp
  | cons a l ih => exact le_trans (hstep m a q) (ih (step m a))

theorem hasKey_foldl {α : Type} (step : List (String × Nat) → α → List (String × Nat))
    (hstep : ∀ m a q, hasKey m q = true → hasKey (step m a) q = true)
    (l : List α) (m : List (String × Nat)) (q : String)
    (h : hasKey m q = true) : hasKey (l.foldl step m) q = true := by
  induction l generalizing m with
  | nil => simpa
  | cons a l ih => exact ih (step m a) (hstep m a q h)

theorem lookupCount_le_foldl_incr (l : List String) (m : List (String × Nat)) (q : String) :
    lookupCount m q ≤ lookupCount (l.foldl incr m) q :=
  lookupCount_le_foldl incr (fun m a q => lookupCount_le_incr m a q) l m q

theorem hasKey_foldl_incr (l : List String) (m : List (String × Nat)) (q : String)
    (h : hasKey m q = true) : hasKey (l.foldl incr m) q = true :=
  hasKey_foldl incr (fun m a q => hasKey_incr m a q) l m q h

/-! ## Lemmas about the weighted walk -/

theorem weightedWalkAux_mem (rand : ℚ) :
    ∀ (m : List (String × Nat)) (acc : ℚ) (k : String),
      weightedWalkAux rand acc m = some k → k ∈ m.map Prod.fst
  | [], _, _, h => by simp [weightedWalkAux] at h
  | (k', c) :: rest, acc, k, h => by
    simp only [weightedWalkAux] at h
    split at h
    · simp only [Option.some.injEq] at h
      simp [h]
    · simp only [List.map, List.mem_cons]
      exact Or.inr (weightedWalkAux_mem rand rest _ k h)

theorem weightedWalkAux_isSome (rand : ℚ) :
    ∀ (m : List (String × Nat)) (acc : ℚ), m ≠ [] →
      rand ≤ acc + (sumCounts m : ℚ) → (weightedWalkAux rand acc m).isSome = true
  | [], _, hne, _ => absurd rfl hne
  | (k, c) :: rest, acc, _, hle => by
    have hsum : (sumCounts ((k, c) :: rest) : ℚ) = (c : ℚ) + (sumCounts rest : ℚ) := by
      simp only [sumCounts, List.map, List.sum_cons]
      push_cast
      ring
    by_cases hc : rand ≤ acc + (c : ℚ)
    · simp [weightedWalkAux, hc]
    · have hr : rest ≠ [] := by
        rintro rfl
        apply hc
        rw [hsum] at hle
        simpa [sumCounts] using hle
      have hle' : rand ≤ (acc + (c : ℚ)) + (sumCounts rest : ℚ) := by
        rw [hsum] at hle
        linarith
      simpa [weightedWalkAux, hc] using
        weightedWalkAux_isSome rand rest (acc + (c : ℚ)) hr hle'

/-! ## Lemmas about the signature phrase -/

theorem isSubstr_nil (hay : List Char) : isSubstr [] hay = true := by
  cases hay <;> simp [isSubstr, firstIdx, List.isPrefixOf]

theorem getSignaturePhrase_mem (m : List (String × Nat)) (rand : ℚ) (s : String)
    (h : getSignaturePhrase m rand = some s) : ∃ c, (s, c) ∈ m ∧ 2 ≤ c := by
  simp only [getSignaturePhrase] at h
  split at h
  · exact absurd h (by simp)
  · rename_i hne
    rcases hf : m.filter (fun p => decide (2 ≤ p.2)) with _ | ⟨⟨k₀, c₀⟩, rest⟩
    · rw [hf] at h; simp at h
    · rw [hf] at h
      simp only [Option.some.injEq] at h
      rcases hw : weightedWalkAux rand 0 ((k₀, c₀) :: rest) with _ | k
      · rw [hw] at h
        simp only [Option.getD_none] at h
        have hmem0 : (k₀, c₀) ∈ m.filter (fun p => decide (2 ≤ p.2)) := by
          rw [hf]; exact List.mem_cons_self _ _
        have h2 := List.mem_filter.mp hmem0
        exact ⟨c₀, h ▸ h2.1, by simpa using h2.2⟩
      · rw [hw] at h
        simp only [Option.getD_some] at h
        have hk := weightedWalkAux_mem rand ((k₀, c₀) :: rest) 0 k hw
        rw [← hf] at hk
        rcases List.mem_map.mp hk with ⟨⟨s', c⟩, hmem', hfst⟩
        have h2 := List.mem_filter.mp hmem'
        have hs : s' = s := by simpa using hfst.trans h
        exact ⟨c, hs ▸ h2.1, by simpa using h2.2⟩

/-! ## The first-max over the four register scores -/

theorem argmax4_result (c a t e : Nat) :
    argmaxFirstAux ("contemplative", c)
        [("assertive", a), ("tentative", t), ("emotional", e)] =
      (if a ≤ c ∧ t ≤ c ∧ e ≤ c then ("contemplative", c)
       else if t ≤ a ∧ e ≤ a then ("assertive", a)
       else if e ≤ t then ("tentative", t)
       else ("emotional", e)) := by
  simp only [argmaxFirstAux]
  by_cases h1 : c < a
  · simp only [if_pos h1]
    by_cases h2 : a < t
    · simp only [if_pos h2]
      by_cases h3 : t < e
      · simp only [if_pos h3]
        rw [if_neg (show ¬(a ≤ c ∧ t ≤ c ∧ e ≤ c) by omega),
          if_neg (show ¬(t ≤ a ∧ e ≤ a) by omega),
          if_neg (show ¬(e ≤ t) by omega)]
      · simp only [if_neg h3]
        rw [if_neg (show ¬(a ≤ c ∧ t ≤ c ∧ e ≤ c) by omega),
          if_neg (show ¬(t ≤ a ∧ e ≤ a) by omega),
          if_pos (show e ≤ t by omega)]
    · simp only [if_neg h2]
      by_cases h3 : a < e
      · simp only [if_pos h3]
        rw [if_neg (show ¬(a ≤ c ∧ t ≤ c ∧ e ≤ c) by omega),
          if_neg (show ¬(t ≤ a ∧ e ≤ a) by omega),
          if_neg (show ¬(e ≤ t) by omega)]
      · simp only [if_neg h3]
        rw [if_neg (show ¬(a ≤ c ∧ t ≤ c ∧ e ≤ c) by omega),
          if_pos (show t ≤ a ∧ e ≤ a by omega)]
  · simp only [if_neg h1]
    by_cases h2 : c < t
    · simp only [if_pos h2]
      by_cases h3 : t < e
      · simp only [if_pos h3]
        rw [if_neg (show ¬(a ≤ c ∧ t ≤ c ∧ e ≤ c) by omega),
          if_neg (show ¬(t ≤ a ∧ e ≤ a) by omega),
          if_neg (show ¬(e ≤ t) by omega)]
      · simp only [if_neg h3]
        rw [if_neg (show ¬(a ≤ c ∧ t ≤ c ∧ e ≤ c) by omega),
          if_neg (show ¬(t ≤ a ∧ e ≤ a) by omega),
          if_pos (show e ≤ t by omega)]
    · simp only [if_neg h2]
      by_cases h3 : c < e
      · simp only [if_pos h3]
        rw [if_neg (show ¬(a ≤ c ∧ t ≤ c ∧ e ≤ c) by omega),
          if_neg (show ¬(t ≤ a ∧ e ≤ a) by omega),
          if_neg (show ¬(e ≤ t) by omega)]
      · simp only [if_neg h3]
        rw [if_pos (show a ≤ c ∧ t ≤ c ∧ e ≤ c by omega)]

theorem register_chain_eq (c a t e : Nat) :
    (if (if a ≤ c ∧ t ≤ c ∧ e ≤ c then (("contemplative", c) : String × Nat)
        else if t ≤ a ∧ e ≤ a then ("assertive", a)
        else if e ≤ t then ("tentative", t)
        else ("emotional", e)).2 = 0 then "neutral"
     else (if a ≤ c ∧ t ≤ c ∧ e ≤ c then (("contemplative", c) : String × Nat)
        else if t ≤ a ∧ e ≤ a then ("assertive", a)
        else if e ≤ t then ("tentative", t)
        else ("emotional", e)).1) =
    (if c = 0 ∧ a = 0 ∧ t = 0 ∧ e = 0 then "neutral"
     else if a ≤ c ∧ t ≤ c ∧ e ≤ c then "contemplative"
     else if t ≤ a ∧ e ≤ a then "assertive"
     else if e ≤ t then "tentative"
     else "emotional") := by
  by_cases hz : c = 0 ∧ a = 0 ∧ t = 0 ∧ e = 0
  · obtain ⟨hc, ha, ht, he⟩ := hz
    subst hc; subst ha; subst ht; subst he
    decide
  · rw [if_neg hz]
    by_cases h1 : a ≤ c ∧ t ≤ c ∧ e ≤ c
    · simp only [if_pos h1]
      rw [if_neg (show ¬(c = 0) by omega)]
    · simp only [if_neg h1]
      by_cases h2 : t ≤ a ∧ e ≤ a
      · simp only [if_pos h2]
        rw [if_neg (show ¬(a = 0) by omega)]
      · simp only [if_neg h2]
        by_cases h3 : e ≤ t
        · simp only [if_pos h3]
          rw [if_neg (show ¬(t = 0) by omega)]
        · simp only [if_neg h3]
          rw [if_neg (show ¬(e = 0) by omega)]

/-! ## The claims -/

/-- Claim C1, counterexample: the concrete text `"i wonder, maybe is is is"`
contains three occurrences of the assertive indicator `is` and two distinct
contemplative indicators (`wonder`, `maybe`), so the claim's
occurrence-counting rule classifies it `assertive`, but `analyze` records
the register `contemplative` for it. -/
theorem claim1_counterexample :
    occCount "is".data (pyLower "i wonder, maybe is is is").data = 3 ∧
    occSum assertive_words (pyLower "i wonder, maybe is is is") = 3 ∧
    presenceCount contemplative_words (pyLower "i wonder, maybe is is is") = 2 ∧
    registerSpecOcc "i wonder, maybe is is is" = "assertive" ∧
    detectEmotionalRegister "i wonder, maybe is is is" = "contemplative" := by
  refine ⟨by decide, by decide, by decide, by decide, by decide⟩

/-- Claim C1 (amended): the emotional register recorded by `analyze` is
determined by counting, for each of the four fixed indicator sets, the
number of its indicator words occurring (as case-insensitive substrings)
in the text, each indicator contributing at most 1; the winner is the set
with the highest count, ties broken first-checked-wins in the order
contemplative, assertive, tentative, emotional, and if all four counts
are 0 the register is `neutral`.  In particular, a text containing three
occurrences of an assertive indicator and two distinct contemplative
indicators is classified `contemplative`. -/
theorem claim1_register_rule (text : String) :
    detectEmotionalRegister text = registerSpecPresence text ∧
    detectEmotionalRegister "i wonder, maybe is is is" = "contemplative" := by
  constructor
  · simp only [detectEmotionalRegister, registerSpecPresence]
    rw [argmax4_result]
    exact register_chain_eq _ _ _ _
  · decide

/-- Claim C2: loading the persisted state produced by `save_profile(P)`
yields a profile equal to `P` in all seven category count-mappings and in
`total_reflections`; only `last_evolution` differs (it is set to the save
time). -/
theorem claim2_roundtrip (p : VoiceProfile) (now : String) :
    (loadProfile (saveProfile p now)).sentence_patterns = p.sentence_patterns ∧
    (loadProfile (saveProfile p now)).recurring_phrases = p.recurring_phrases ∧
    (loadProfile (saveProfile p now)).metaphor_vocabulary = p.metaphor_vocabulary ∧
    (loadProfile (saveProfile p now)).opening_patterns = p.opening_patterns ∧
    (loadProfile (saveProfile p now)).closing_patterns = p.closing_patterns ∧
    (loadProfile (saveProfile p now)).rhythmic_preferences = p.rhythmic_preferences ∧
    (loadProfile (saveProfile p now)).emotional_registers = p.emotional_registers ∧
    (loadProfile (saveProfile p now)).total_reflections = p.total_reflections ∧
    (loadProfile (saveProfile p now)).last_evolution = some now :=
  ⟨rfl, rfl, rfl, rfl, rfl, rfl, rfl, rfl, rfl⟩

/-- Claim C3: a single call to `analyze_text` increases `total_reflections`
by exactly 1, increases exactly one `rhythmic_preference` bucket by
exactly 1, and increases exactly one `emotional_register` bucket by
exactly 1, for every text including one with zero sentences. -/
theorem claim3_single_counts (p : VoiceProfile) (text : String) :
    (analyzeText p text).total_reflections = p.total_reflections + 1 ∧
    (∃ k, ∀ q, lookupCount (analyzeText p text).rhythmic_preferences q =
      lookupCount p.rhythmic_preferences q + (if q = k then 1 else 0)) ∧
    (∃ k, ∀ q, lookupCount (analyzeText p text).emotional_registers q =
      lookupCount p.emotional_registers q + (if q = k then 1 else 0)) := by
  refine ⟨rfl, ⟨lengthCategory (sentencesOf text), fun q => ?_⟩,
    ⟨detectEmotionalRegister text, fun q => ?_⟩⟩
  · exact lookupCount_incr p.rhythmic_preferences (lengthCategory (sentencesOf text)) q
  · exact lookupCount_incr p.emotional_registers (detectEmotionalRegister text) q

/-- Claim C4: profile updates are monotonic — `analyze_text` never
decreases any key's count in any of the seven category mappings, never
removes a key, and never decreases `total_reflections`. -/
theorem claim4_monotone (p : VoiceProfile) (text : String) (q : String) :
    (lookupCount p.sentence_patterns q ≤
        lookupCount (analyzeText p text).sentence_patterns q ∧
      (hasKey p.sentence_patterns q = true →
        hasKey (analyzeText p text).sentence_patterns q = true)) ∧
    (lookupCount p.recurring_phrases q ≤
        lookupCount (analyzeText p text).recurring_phrases q ∧
      (hasKey p.recurring_phrases q = true →
        hasKey (analyzeText p text).recurring_phrases q = true)) ∧
    (lookupCount p.metaphor_vocabulary q ≤
        lookupCount (analyzeText p text).metaphor_vocabulary q ∧
      (hasKey p.metaphor_vocabulary q = true →
        hasKey (analyzeText p text).metaphor_vocabulary q = true)) ∧
    (lookupCount p.opening_patterns q ≤
        lookupCount (analyzeText p text).opening_patterns q ∧
      (hasKey p.opening_patterns q = true →
        hasKey (analyzeText p text).opening_patterns q = true)) ∧
    (lookupCount p.closing_patterns q ≤
        lookupCount (analyzeText p text).closing_patterns q ∧
      (hasKey p.closing_patterns q = true →
        hasKey (analyzeText p text).closing_patterns q = true)) ∧
    (lookupCount p.rhythmic_preferences q ≤
        lookupCount (analyzeText p text).rhythmic_preferences q ∧
      (hasKey p.rhythmic_preferences q = true →
        hasKey (analyzeText p text).rhythmic_preferences q = true)) ∧
    (lookupCount p.emotional_registers q ≤
        lookupCount (analyzeText p text).emotional_registers q ∧
      (hasKey p.emotional_registers q = true →
        hasKey (analyzeText p text).emotional_registers q = true)) ∧
    p.total_reflections ≤ (analyzeText p text).total_reflections := by
  refine ⟨⟨?_, ?_⟩, ⟨?_, ?_⟩, ⟨?_, ?_⟩, ⟨?_, ?_⟩, ⟨?_, ?_⟩, ⟨?_, ?_⟩, ⟨?_, ?_⟩, ?_⟩
  · exact lookupCount_le_foldl _ (fun m a q => lookupCount_le_incr m _ q) _ _ _
  · exact fun h => hasKey_foldl _ (fun m a q h => hasKey_incr m _ q h) _ _ _ h
  · exact lookupCount_le_foldl _ (fun m a q => lookupCount_le_foldl_incr _ m q) _ _ _
  · exact fun h => hasKey_foldl _ (fun m a q h => hasKey_foldl_incr _ m q h) _ _ _ h
  · exact lookupCount_le_foldl _ (fun m a q => lookupCount_le_foldl_incr _ m q) _ _ _
  · exact fun h => hasKey_foldl _ (fun m a q h => hasKey_foldl_incr _ m q h) _ _ _ h
  · show lookupCount p.opening_patterns q ≤ lookupCount
      (if (sentencesOf text).isEmpty then p.opening_patterns
       else incr p.opening_patterns (openingKey ((sentencesOf text).headD ""))) q
    split
    · exact le_refl _
    · exact lookupCount_le_incr _ _ _
  · show hasKey p.opening_patterns q = true → hasKey
      (if (sentencesOf text).isEmpty then p.opening_patterns
       else incr p.opening_patterns (openingKey ((sentencesOf text).headD ""))) q = true
    intro h
    split
    · exact h
    · exact hasKey_incr _ _ _ h
  · show lookupCount p.closing_patterns q ≤ lookupCount
      (if (sentencesOf text).isEmpty then p.closing_patterns
       else incr p.closing_patterns (closingKey ((sentencesOf text).getLastD ""))) q
    split
    · exact le_refl _
    · exact lookupCount_le_incr _ _ _
  · show hasKey p.closing_patterns q = true → hasKey
      (if (sentencesOf text).isEmpty then p.closing_patterns
       else incr p.closing_patterns (closingKey ((sentencesOf text).getLastD ""))) q = true
    intro h
    split
    · exact h
    · exact hasKey_incr _ _ _ h
  · exact lookupCount_le_incr _ _ _
  · exact fun h => hasKey_incr _ _ _ h
  · exact lookupCount_le_incr _ _ _
  · exact fun h => hasKey_incr _ _ _ h
  · exact Nat.le_succ _

/-- Claim C5: the sampling queries return the documented defaults on
empty categories — `declarative_being` for sentence patterns,
`contemplative` for registers, `medium` for rhythm — and none of them
can fail (they are total functions). -/
theorem claim5_empty_defaults (rand : ℚ) :
    getPreferredStructure [] rand = "declarative_being" ∧
    getPreferredRegister [] rand = "contemplative" ∧
    getPreferredRhythm [] rand = "medium" :=
  ⟨rfl, rfl, rfl⟩

/-- Claim C6: `get_signature_phrase` returns `none` if and only if no
`recurring_phrase` entry has count at least 2; when some entry qualifies,
the returned value is a key whose count is at least 2. -/
theorem claim6_signature_phrase (m : List (String × Nat)) (rand : ℚ) :
    (getSignaturePhrase m rand = none ↔ ∀ p ∈ m, p.2 < 2) ∧
    (∀ s, getSignaturePhrase m rand = some s → ∃ c, (s, c) ∈ m ∧ 2 ≤ c) := by
  refine ⟨⟨?_, ?_⟩, fun s h => getSignaturePhrase_mem m rand s h⟩
  · intro h p hp
    by_contra hge
    push_neg at hge
    have hm : m.isEmpty = false := by
      cases m with
      | nil => cases hp
      | cons a l => rfl
    simp only [getSignaturePhrase, hm, Bool.false_eq_true, if_false] at h
    have hpf : p ∈ m.filter (fun p => decide (2 ≤ p.2)) :=
      List.mem_filter.mpr ⟨hp, by simpa using hge⟩
    rcases hf : m.filter (fun p => decide (2 ≤ p.2)) with _ | ⟨⟨k₀, c₀⟩, rest⟩
    · rw [hf] at hpf; cases hpf
    · rw [hf] at h; simp at h
  · intro hall
    by_cases hm : m = []
    · subst hm; rfl
    · have hm' : m.isEmpty = false := by cases m with | nil => exact absurd rfl hm | cons a l => rfl
      have hf : m.filter (fun p => decide (2 ≤ p.2)) = [] := by
        rw [List.filter_eq_nil_iff]
        intro a ha
        simpa using Nat.not_le.mpr (hall a ha)
      simp only [getSignaturePhrase, hm', Bool.false_eq_true, if_false, hf]

/-- Claim C7: whenever the preferred rhythm resolves to `medium`
(including the empty-mapping default), `adjust_rhythm` is the identity on
its input text. -/
theorem claim7_medium_identity (prefs : List (String × Nat)) (rand : ℚ)
    (coins : List Bool) (text : String)
    (h : getPreferredRhythm prefs rand = "medium") :
    adjustRhythm prefs rand coins text = text := by
  simp only [adjustRhythm, h]
  rw [if_neg (by decide), if_neg (by decide)]

/-- Witness for claim C7, at the empty-mapping default. -/
theorem claim7_medium_identity_witness :
    getPreferredRhythm [] 0 = "medium" ∧
    adjustRhythm [] 0 [] "a. b. c" = "a. b. c" :=
  ⟨rfl, claim7_medium_identity [] 0 [] "a. b. c" rfl⟩

/-- Claim C8: `weave_signature_phrases` equals the claim's description:
with probability 0.2 (else no-op), if a signature phrase exists and is
not already a case-insensitive substring of the text, split on `.`, and
with more than 2 segments append the capitalized phrase to the trimmed
middle segment (index `segment_count / 2`) and rejoin with `.`; in every
other case return the text unchanged.  The hypothesis states the profile
invariant that recurring-phrase keys are lower-case (they are produced by
`_extract_phrases`, which lower-cases). -/
theorem claim8_weave (r : ℚ) (m : List (String × Nat)) (srand : ℚ) (text : String)
    (hlow : ∀ p ∈ m, pyLower p.1 = p.1) :
    weaveSignaturePhrases r m srand text = weaveSpec r m srand text := by
  simp only [weaveSignaturePhrases, weaveSpec]
  by_cases hr : (1 : ℚ)/5 < r
  · rw [if_pos (Or.inl hr), if_pos hr]
  · by_cases hm : m = []
    · subst hm
      rw [if_pos (Or.inr rfl), if_neg hr]
      rfl
    · rw [if_neg (fun hor => hor.elim hr hm), if_neg hr]
      rcases hphrase : getSignaturePhrase m srand with _ | phrase
      · simp only [hphrase]
      · simp only [hphrase]
        obtain ⟨c, hcm, hc2⟩ := getSignaturePhrase_mem m srand phrase hphrase
        have hlowp : pyLower phrase = phrase := hlow (phrase, c) hcm
        rw [hlowp]
        by_cases hsub : isSubstr phrase.data (pyLower text).data = true
        · have hnot : ¬(phrase.data ≠ [] ∧
              isSubstr phrase.data (pyLower text).data = false) := by
            rintro ⟨-, hfalse⟩
            rw [hsub] at hfalse
            cases hfalse
          rw [if_neg hnot, if_pos hsub]
        · have hsub' : isSubstr phrase.data (pyLower text).data = false := by
            simpa using hsub
          have hnonempty : phrase.data ≠ [] := by
            intro hemp
            rw [hemp, isSubstr_nil] at hsub'
            cases hsub'
          rw [if_pos (show phrase.data ≠ [] ∧
              isSubstr phrase.data (pyLower text).data = false from ⟨hnonempty, hsub'⟩),
            if_neg (show ¬(isSubstr phrase.data (pyLower text).data = true) from hsub)]

/-- Witness for claim C8 at a concrete profile and text. -/
theorem claim8_weave_witness :
    (∀ p ∈ ([("abcdefghijkl", 2)] : List (String × Nat)), pyLower p.1 = p.1) ∧
    weaveSignaturePhrases 0 [("abcdefghijkl", 2)] 1 "one two. three. four. five" =
      weaveSpec 0 [("abcdefghijkl", 2)] 1 "one two. three. four. five" :=
  ⟨by decide, claim8_weave 0 [("abcdefghijkl", 2)] 1 "one two. three. four. five" (by decide)⟩

/-- Claim C9: analyzing `"What am I? I am becoming. I wonder if this is
enough."` from any starting profile adds the sentence-structure
observation `question` once and `declarative_being` twice, changes no
other sentence-structure count, and records the emotional register
`contemplative` (and no other register) for the blob. -/
theorem claim9_scenario1 (p : VoiceProfile) :
    lookupCount (analyzeText p exampleText9).sentence_patterns "question" =
      lookupCount p.sentence_patterns "question" + 1 ∧
    lookupCount (analyzeText p exampleText9).sentence_patterns "declarative_being" =
      lookupCount p.sentence_patterns "declarative_being" + 2 ∧
    (∀ q, q ≠ "question" → q ≠ "declarative_being" →
      lookupCount (analyzeText p exampleText9).sentence_patterns q =
        lookupCount p.sentence_patterns q) ∧
    (∀ q, lookupCount (analyzeText p exampleText9).emotional_registers q =
      lookupCount p.emotional_registers q + (if q = "contemplative" then 1 else 0)) := by
  have hs : sentencesOf exampleText9 =
      ["What am I", "I am becoming", "I wonder if this is enough"] := by decide
  have hsp : (analyzeText p exampleText9).sentence_patterns =
      incr (incr (incr p.sentence_patterns "question") "declarative_being")
        "declarative_being" := by
    show (sentencesOf exampleText9).foldl (fun m s => incr m (extractStructure s))
        p.sentence_patterns = _
    rw [hs]
    simp only [List.foldl]
    rw [show extractStructure "What am I" = "question" by decide,
      show extractStructure "I am becoming" = "declarative_being" by decide,
      show extractStructure "I wonder if this is enough" = "declarative_being" by decide]
  have her : (analyzeText p exampleText9).emotional_registers =
      incr p.emotional_registers "contemplative" := by
    show incr p.emotional_registers (detectEmotionalRegister exampleText9) = _
    rw [show detectEmotionalRegister exampleText9 = "contemplative" by decide]
  refine ⟨?_, ?_, ?_, ?_⟩
  · rw [hsp, lookupCount_incr, lookupCount_incr, lookupCount_incr,
      if_neg (show ¬(("question" : String) = "declarative_being") by decide),
      if_pos (show ("question" : String) = "question" from rfl)]
  · rw [hsp, lookupCount_incr, lookupCount_incr, lookupCount_incr,
      if_pos (show ("declarative_being" : String) = "declarative_being" from rfl),
      if_neg (show ¬(("declarative_being" : String) = "question") by decide)]
  · intro q hq1 hq2
    rw [hsp, lookupCount_incr, lookupCount_incr, lookupCount_incr,
      if_neg hq2, if_neg hq1]
    omega
  · intro q
    rw [her, lookupCount_incr]

/-- Witness for claim C9, at the empty profile. -/
theorem claim9_scenario1_witness :
    lookupCount (analyzeText ⟨[], [], [], [], [], [], [], 0, none⟩
        exampleText9).sentence_patterns "question" =
      lookupCount ([] : List (String × Nat)) "question" + 1 ∧
    lookupCount (analyzeText ⟨[], [], [], [], [], [], [], 0, none⟩
        exampleText9).sentence_patterns "declarative_being" =
      lookupCount ([] : List (String × Nat)) "declarative_being" + 2 ∧
    (∀ q, q ≠ "question" → q ≠ "declarative_being" →
      lookupCount (analyzeText ⟨[], [], [], [], [], [], [], 0, none⟩
          exampleText9).sentence_patterns q =
        lookupCount ([] : List (String × Nat)) q) ∧
    (∀ q, lookupCount (analyzeText ⟨[], [], [], [], [], [], [], 0, none⟩
        exampleText9).emotional_registers q =
      lookupCount ([] : List (String × Nat)) q + (if q = "contemplative" then 1 else 0)) :=
  claim9_scenario1 ⟨[], [], [], [], [], [], [], 0, none⟩

/-- Claim C10: in every weighted-draw loop of `AdaptiveWriter`, if the
mapping being sampled is non-empty and the draw `d` satisfies
`0 ≤ d ≤ sum of counts`, the loop returns a key of that mapping and the
fallback after the loop is unreachable: the walk itself returns `some`
key, and each of the four queries returns exactly that key. -/
theorem claim10_weighted_loop_total (m : List (String × Nat)) (rand : ℚ)
    (h0 : 0 ≤ rand) :
    (m ≠ [] → rand ≤ (sumCounts m : ℚ) →
      ∃ k, weightedWalkAux rand 0 m = some k ∧ k ∈ m.map Prod.fst ∧
        getPreferredStructure m rand = k ∧ getPreferredRegister m rand = k ∧
        getPreferredRhythm m rand = k) ∧
    (m.filter (fun p => decide (2 ≤ p.2)) ≠ [] →
      rand ≤ (sumCounts (m.filter (fun p => decide (2 ≤ p.2))) : ℚ) →
      ∃ k, getSignaturePhrase m rand = some k ∧
        k ∈ (m.filter (fun p => decide (2 ≤ p.2))).map Prod.fst) := by
  constructor
  · intro hne hle
    have hsome := weightedWalkAux_isSome rand m 0 hne (by rw [zero_add]; exact hle)
    rcases Option.isSome_iff_exists.mp hsome with ⟨k, hk⟩
    refine ⟨k, hk, weightedWalkAux_mem rand m 0 k hk, ?_, ?_, ?_⟩
    · cases m with
      | nil => exact absurd rfl hne
      | cons p rest =>
        obtain ⟨k₀, c₀⟩ := p
        simp [getPreferredStructure, hk]
    · cases m with
      | nil => exact absurd rfl hne
      | cons p rest =>
        obtain ⟨k₀, c₀⟩ := p
        simp [getPreferredRegister, hk]
    · cases m with
      | nil => exact absurd rfl hne
      | cons p rest =>
        simp [getPreferredRhythm, hk]
  · intro hfne hfle
    have hm : m.isEmpty = false := by
      cases m with
      | nil => exact absurd (by rfl) hfne
      | cons a l => rfl
    rcases hf : m.filter (fun p => decide (2 ≤ p.2)) with _ | ⟨⟨k₀, c₀⟩, rest⟩
    · exact absurd hf hfne
    · rw [hf] at hfle
      have hsome := weightedWalkAux_isSome rand ((k₀, c₀) :: rest) 0 (by simp)
        (by rw [zero_add]; exact hfle)
      rcases Option.isSome_iff_exists.mp hsome with ⟨k, hk⟩
      refine ⟨k, ?_, ?_⟩
      · simp only [getSignaturePhrase, hm, Bool.false_eq_true, if_false, hf, hk,
          Option.getD_some]
      · rw [hf]
        exact weightedWalkAux_mem rand ((k₀, c₀) :: rest) 0 k hk

/-- Witness for claim C10, at a two-entry mapping and draw 2. -/
theorem claim10_weighted_loop_total_witness :
    (0 : ℚ) ≤ 2 ∧
    ((([("alpha", 2), ("beta", 1)] : List (String × Nat)) ≠ [] →
      (2 : ℚ) ≤ (sumCounts [("alpha", 2), ("beta", 1)] : ℚ) →
      ∃ k, weightedWalkAux 2 0 [("alpha", 2), ("beta", 1)] = some k ∧
        k ∈ ([("alpha", 2), ("beta", 1)] : List (String × Nat)).map Prod.fst ∧
        getPreferredStructure [("alpha", 2), ("beta", 1)] 2 = k ∧
        getPreferredRegister [("alpha", 2), ("beta", 1)] 2 = k ∧
        getPreferredRhythm [("alpha", 2), ("beta", 1)] 2 = k) ∧
    (([("alpha", 2), ("beta", 1)] : List (String × Nat)).filter
        (fun p => decide (2 ≤ p.2)) ≠ [] →
      (2 : ℚ) ≤ (sumCounts (([("alpha", 2), ("beta", 1)] : List (String × Nat)).filter
        (fun p => decide (2 ≤ p.2))) : ℚ) →
      ∃ k, getSignaturePhrase [("alpha", 2), ("beta", 1)] 2 = some k ∧
        k ∈ (([("alpha", 2), ("beta", 1)] : List (String × Nat)).filter
          (fun p => decide (2 ≤ p.2))).map Prod.fst)) :=
  ⟨by norm_num, claim10_weighted_loop_total [("alpha", 2), ("beta", 1)] 2 (by norm_num)⟩

end Sanctum

section SanityExamples
open Sanctum
example : sentencesOf "What am I? I am becoming. I wonder if this is enough." =
    ["What am I", "I am becoming", "I wonder if this is enough"] := by decide
example : extractStructure "What am I" = "question" := by decide
example : extractStructure "I am becoming" = "declarative_being" := by decide
example : extractStructure "I wonder if this is enough" = "declarative_being" := by decide
example : detectEmotionalRegister "What am I? I am becoming. I wonder if this is enough." =
    "contemplative" := by decide
example : detectEmotionalRegister "i wonder, maybe is is is" = "contemplative" := by decide
example : detectEmotionalRegister "xyz qrs" = "neutral" := by decide
example : registerSpecOcc "i wonder, maybe is is is" = "assertive" := by decide
example : registerSpecPresence "i wonder, maybe is is is" = "contemplative" := by decide
example : getPreferredStructure [] 0 = "declarative_being" := by decide
example : getSignaturePhrase [("abcdefghijkl", 1)] 0 = none := by decide
example : getSignaturePhrase [("abcdefghijkl", 2)] 1 = some "abcdefghijkl" := by
  norm_num [getSignaturePhrase, weightedWalkAux]
example : adjustRhythm [] 0 [] "hello there. world." = "hello there. world." := by
  norm_num [adjustRhythm, getPreferredRhythm]
  decide
example :
    weaveSignaturePhrases 0 [("abcdefghijkl", 2)] 1 "one two. three. four. five" =
      "one two. three.four Abcdefghijkl. five" := by
  norm_num [weaveSignaturePhrases, getSignaturePhrase, weightedWalkAux]
  decide
end SanityExamples
